import Mathlib

/-!
Verification of the generational-evolution core of the `neat` package
(`population.go`): population advancement (`rollPop`), roulette-wheel
selection (`tournament`), speciation (`speciate`), flattening
(`Population.Organisms`) and mean population complexity (`Population.MPC`).

Conventions of the shallow embedding:
* Go `float64` values are modelled as rationals (`ℚ`); Go's float-to-int
  conversion (truncation toward zero) is `goInt`.
* Go `nil`-able results and runtime panics (nil dereference, out-of-range
  index, `rand.Intn(0)`) are modelled with `Option`: `none` is a panic or a
  nil champion, as documented at each definition.
* The external collaborators (mutation, crossover, compatibility distance,
  the fitness-aggregation hook of `calcFitness`, and the random source) are
  parameters, bundled in `Ext`.  The random source is modelled as two
  streams indexed by a cursor: `next` for the uniform `[0,1)` draws
  (`random.Next()` / `random.Float64()`), `rint` for the integer draws
  (`random.Int(n)`, used modulo the bound).
* The innovation counter is threaded as a `Nat`; `nextID` returns the
  counter and increments it.  `inno.reset()` has collaborator-owned
  semantics and does not affect the identifiers the core assigns later, so
  it is modelled as leaving the threaded counter unchanged.
-/

namespace Neat

/-- An organism: the genome content used by this core (`Nodes`/`Conns` gene
counts, the genome identity assigned by `cloneGenome`) plus the primary
fitness `Fitness[0]`, the only fitness component the core reads. -/
structure Organism where
  GID : Nat
  Nodes : Nat
  Conns : Nat
  Fitness0 : ℚ
deriving DecidableEq, Repr

/-- A species, mirroring `Species` (species.go / population.go usage):
identifier, ordered member list, age bookkeeping for stagnation, the
`Example` anchor used by speciation, and the per-generation aggregated
fitness `currFitness`. -/
structure Species where
  ID : Nat
  Orgs : List Organism
  Age : Int
  BestFitness : ℚ
  BestFitAge : Int
  Example : Organism
  currFitness : ℚ
deriving DecidableEq, Repr

/-- A population: generation counter and the species making it up. -/
structure Population where
  Generation : Int
  Species : List Species
deriving DecidableEq, Repr

/-- The configuration fields of `Settings` read by this core. -/
structure Settings where
  PopulationSize : Nat
  SurvivalPercent : ℚ
  EliteCount : Nat
  AgeToStagnation : Int
  Crossover : ℚ
  InterspeciesMating : ℚ
  CompatThreshold : ℚ
deriving DecidableEq, Repr

/-- Modelled from the spec: `OrganismSlice.TotalFitness` (organism.go,
outside src/) sums the primary fitness over a slice of organisms. -/
def totalFitness (orgs : List Organism) : ℚ :=
  (orgs.map (fun o => o.Fitness0)).sum

/-- External collaborators and the random source consumed by the core
(§6 of the spec): the fitness-aggregation hook used by `calcFitness`, the
mutation and crossover operators, the compatibility distance, and the two
random streams. -/
structure Ext where
  agg : List Organism → ℚ
  mutate : Organism → Organism
  crossover : Organism → Organism → Organism
  distance : Organism → Organism → ℚ
  next : Nat → ℚ
  rint : Nat → Nat

/-- Modelled from the spec: `cloneOrg`/`cloneGenome` (outside src/) copy
the genome content and assign the given fresh identity. -/
def cloneOrg (o : Organism) (newID : Nat) : Organism :=
  { o with GID := newID }

/-- Running maximum of the primary fitness over a list, seeded with the
previously recorded best. -/
def maxFit : List Organism → ℚ → ℚ
  | [], b => b
  | o :: rest, b => maxFit rest (if b < o.Fitness0 then o.Fitness0 else b)

/-- Modelled from the spec: `Species.calcFitness` (species.go, outside
src/).  Per §4.2/§3 it recomputes `currFitness` through the external
aggregation hook over the members and maintains `BestFitness`/`BestFitAge`
(the best member fitness ever achieved, and the age at which it was
recorded) for stagnation detection.  It does not modify the member list. -/
def calcFitness (agg : List Organism → ℚ) (s : Species) : Species :=
  let m := maxFit s.Orgs s.BestFitness
  { s with
      currFitness := agg s.Orgs
      BestFitness := m
      BestFitAge := if s.BestFitness < m then s.Age else s.BestFitAge }

/-- Go's float-to-int conversion `int(x)` truncates toward zero. -/
def goInt (q : ℚ) : Int :=
  if q < 0 then q.ceil else q.floor

/-- Scan of one species' organisms for the best-fitness organism
(`rollPop` lines 80-89): strictly-greater comparison against the running
best, so ties keep the first-encountered species. -/
def bestScanOrgs (s : Species) : List Organism → Option Species × ℚ → Option Species × ℚ
  | [], acc => acc
  | o :: rest, acc =>
    if o.Fitness0 > acc.2 then bestScanOrgs s rest (some s, o.Fitness0)
    else bestScanOrgs s rest acc

/-- Scan of all species, in order, for the best organism's species. -/
def bestScan : List Species → Option Species × ℚ → Option Species × ℚ
  | [], acc => acc
  | s :: rest, acc => bestScan rest (bestScanOrgs s s.Orgs acc)

/-- The protected species of the step: owner of the organism with the
highest primary fitness.  The running best starts at `0` and the
comparison is strict, so if no organism has positive fitness the result is
`none` (the Go `bestSpecies` pointer stays nil). -/
def bestSpecies (ss : List Species) : Option Species :=
  (bestScan ss (none, 0)).1

/-- Modelled from the spec: the `OrganismSlice` sort order (organism.go,
outside src/) combined with `sort.Reverse` yields fitness-descending
order (§4.4).  `sort.Sort` is unstable, so tie order is unspecified in the
source; this insertion into descending position is one valid outcome. -/
def insertDesc (o : Organism) : List Organism → List Organism
  | [] => [o]
  | x :: rest =>
    if x.Fitness0 < o.Fitness0 then o :: x :: rest else x :: insertDesc o rest

/-- Sort a member list by primary fitness, descending. -/
def sortDesc : List Organism → List Organism
  | [] => []
  | o :: rest => insertDesc o (sortDesc rest)

/-- The keep-count of the culling step (`rollPop` lines 101-107):
`int(SurvivalPercent * size)`, raised to `EliteCount` when below it,
lowered to the species size when above it. -/
def keepCount (st : Settings) (n : Nat) : Nat :=
  let keep0 := (st.SurvivalPercent * (n : ℚ)).floor.toNat
  let keep1 := if keep0 < st.EliteCount then st.EliteCount else keep0
  if n < keep1 then n else keep1

/-- Culling of one surviving species (`rollPop` lines 100-110): sort the
members fitness-descending, keep `keepCount` of them, record the truncated
list and pick the organism at the drawn index as the new `Example`.  When
the keep-count is zero the source executes `random.Int(0)`, which panics:
modelled as `none`. -/
def cullSpecies (st : Settings) (ri : Nat) (s : Species) : Option Species :=
  let keep := keepCount st s.Orgs.length
  if keep = 0 then none
  else
    let kept := (sortDesc s.Orgs).take keep
    (kept[ri % keep]?).map fun exo => { s with Orgs := kept, Example := exo }

/-- Accumulator of the survival gate (`rollPop` lines 92-112): the living
(already culled) species, the total adjusted fitness `adjFit`, the total
retained fitness `popFit`, and the cursor into the integer-draw stream. -/
structure Gated where
  living : List Species
  adjFit : ℚ
  popFit : ℚ
  ki : Nat
deriving DecidableEq, Repr

/-- The extinction/survival gate (`rollPop` lines 96-112).  A species
passes if it is the protected species (ID match) or its stagnation age is
below the threshold; passing species are culled and accumulated.  When the
protected species is `none` the source dereferences the nil pointer in
`s.ID == bestSpecies.ID`, a panic: modelled as `none` (only reached when
at least one species is scanned). -/
def survivalGate (st : Settings) (ext : Ext) (bestS : Option Species) :
    List Species → Gated → Option Gated
  | [], acc => some acc
  | s :: rest, acc =>
    match bestS with
    | none => none
    | some b =>
      if s.ID = b.ID ∨ s.Age - s.BestFitAge < st.AgeToStagnation then
        (cullSpecies st (ext.rint acc.ki) s).bind fun s' =>
          survivalGate st ext bestS rest
            { living := acc.living ++ [s']
              adjFit := acc.adjFit + s.currFitness
              popFit := acc.popFit + totalFitness s'.Orgs
              ki := acc.ki + 1 }
      else survivalGate st ext bestS rest acc

/-- The walk of `tournament` (lines 205-212): accumulate fitness and
return the first organism whose cumulative fitness meets the target;
`none` when the walk falls off the end (the "should be an error" return of
a nil champion). -/
def tournamentWalk : List Organism → ℚ → ℚ → Option Organism
  | [], _, _ => none
  | o :: rest, tgt, sum =>
    let sum' := sum + o.Fitness0
    if sum' ≥ tgt then some o else tournamentWalk rest tgt sum'

/-- Roulette-wheel selection (`tournament`, lines 203-214): `r` is the
uniform draw `random.Next()`, the target is `r * totFit`.  Returns `none`
(the nil champion) on an empty pool or when the accumulated fitness never
reaches the target. -/
def tournament (orgs : List Organism) (totFit r : ℚ) : Option Organism :=
  tournamentWalk orgs (r * totFit) 0

/-- State threaded through the reproduction loop over the living species:
the accumulated next-generation species, the flat children list, the
innovation counter and the cursor into the uniform-draw stream. -/
structure RollState where
  NextSpecies : List Species
  Children : List Organism
  Inno : Nat
  K : Nat
deriving DecidableEq, Repr

/-- The non-elite offspring loop of one species (`rollPop` lines 135-168),
iterated `n` times.  Per slot: a draw below `InterspeciesMating` skips the
slot (`continue`); otherwise parent 1 is drawn by `tournament` over the
species; a singleton species, or a draw above `Crossover`, produces a
mutated clone with a fresh identity; otherwise parent 2 is drawn (from the
whole population on an `InterspeciesMating` draw, else from the species)
and the child is the mutated crossover.  A nil parent makes
`cloneOrg`/`crossover` dereference nil (panic): modelled as `none`. -/
def offspringLoop (st : Settings) (ext : Ext) (orgs : List Organism) (orgFit : ℚ)
    (popOrgs : List Organism) (popFit : ℚ) :
    Nat → List Organism → Nat → Nat → Option (List Organism × Nat × Nat)
  | 0, cs, inno, k => some (cs, inno, k)
  | n + 1, cs, inno, k =>
    if ext.next k < st.InterspeciesMating then
      offspringLoop st ext orgs orgFit popOrgs popFit n cs inno (k + 1)
    else
      (tournament orgs orgFit (ext.next (k + 1))).bind fun p1 =>
        if orgs.length = 1 then
          offspringLoop st ext orgs orgFit popOrgs popFit n
            (cs ++ [ext.mutate (cloneOrg p1 inno)]) (inno + 1) (k + 2)
        else if ext.next (k + 2) > st.Crossover then
          offspringLoop st ext orgs orgFit popOrgs popFit n
            (cs ++ [ext.mutate (cloneOrg p1 inno)]) (inno + 1) (k + 3)
        else
          (if ext.next (k + 3) < st.InterspeciesMating then
              tournament popOrgs popFit (ext.next (k + 4))
            else tournament orgs orgFit (ext.next (k + 4))).bind fun p2 =>
            offspringLoop st ext orgs orgFit popOrgs popFit n
              (cs ++ [ext.mutate (ext.crossover p1 p2)]) inno (k + 5)

/-- The top-up half of the child-count correction (`rollPop` lines
174-181): `c` times, draw two parents from the whole population and append
the mutated crossover child.  A nil parent panics in `crossover`: `none`. -/
def topUp (st : Settings) (ext : Ext) (popOrgs : List Organism) (popFit : ℚ) :
    Nat → List Organism → Nat → Option (List Organism × Nat)
  | 0, cs, k => some (cs, k)
  | c + 1, cs, k =>
    (tournament popOrgs popFit (ext.next k)).bind fun p1 =>
      (tournament popOrgs popFit (ext.next (k + 1))).bind fun p2 =>
        topUp st ext popOrgs popFit c (cs ++ [ext.mutate (ext.crossover p1 p2)]) (k + 2)

/-- The child-count correction ("Ensure we have the right number of
children", `rollPop` lines 171-182): truncate to `PopulationSize` when
over, top up to `PopulationSize` when under.  In the source this block
sits INSIDE the per-species loop (the loop closes at line 184), so it runs
once per surviving species. -/
def correction (st : Settings) (ext : Ext) (popOrgs : List Organism) (popFit : ℚ)
    (cs : List Organism) (k : Nat) : Option (List Organism × Nat) :=
  if st.PopulationSize < cs.length then some (cs.take st.PopulationSize, k)
  else topUp st ext popOrgs popFit (st.PopulationSize - cs.length) cs k

/-- Processing of one living species up to (excluding) the child-count
correction (`rollPop` lines 122-168): compute the offspring budget
`int(currFitness / adjFit * PopulationSize)`, append the empty
next-generation species carrying over ID, ages and `Example`, append the
elites (each decrementing the budget), then run the offspring loop for the
remaining budget. -/
def speciesOffspring (st : Settings) (ext : Ext) (popOrgs : List Organism)
    (popFit adjFit : ℚ) (state : RollState) (currS : Species) : Option RollState :=
  let cnt0 : Int := goInt (currS.currFitness / adjFit * (st.PopulationSize : ℚ))
  let nextS : Species :=
    { ID := currS.ID, Orgs := [], Age := currS.Age + 1,
      BestFitness := currS.BestFitness, BestFitAge := currS.BestFitAge,
      Example := currS.Example, currFitness := 0 }
  let nElite := min st.EliteCount currS.Orgs.length
  let orgFit := totalFitness currS.Orgs
  (offspringLoop st ext currS.Orgs orgFit popOrgs popFit
      (cnt0 - (nElite : Int)).toNat (state.Children ++ currS.Orgs.take nElite)
      state.Inno state.K).map fun r =>
    { NextSpecies := state.NextSpecies ++ [nextS], Children := r.1,
      Inno := r.2.1, K := r.2.2 }

/-- One full iteration of the per-species loop (`rollPop` lines 119-184):
offspring generation followed by the in-loop child-count correction. -/
def processSpecies (st : Settings) (ext : Ext) (popOrgs : List Organism)
    (popFit adjFit : ℚ) (state : RollState) (currS : Species) : Option RollState :=
  (speciesOffspring st ext popOrgs popFit adjFit state currS).bind fun st1 =>
    (correction st ext popOrgs popFit st1.Children st1.K).map fun r =>
      { st1 with Children := r.1, K := r.2 }

/-- The loop over all living species. -/
def livingLoop (st : Settings) (ext : Ext) (popOrgs : List Organism)
    (popFit adjFit : ℚ) : List Species → RollState → Option RollState
  | [], state => some state
  | s :: rest, state =>
    (processSpecies st ext popOrgs popFit adjFit state s).bind fun st' =>
      livingLoop st ext popOrgs popFit adjFit rest st'

/-- Scan of the next-generation species for the first one compatible with
a child (`speciate` lines 222-230): first species whose `Example` is
within `CompatThreshold` receives the child. -/
def assignChild (st : Settings) (ext : Ext) (child : Organism) :
    List Species → Option (List Species)
  | [] => none
  | s :: rest =>
    if ext.distance child s.Example < st.CompatThreshold then
      some ({ s with Orgs := s.Orgs ++ [child] } :: rest)
    else
      (assignChild st ext child rest).map fun rest' => s :: rest'

/-- Speciation (`speciate`, lines 216-241): each child joins the first
compatible species, scanning in order; if none is compatible a new species
is created with a fresh ID, the child as sole member and as `Example`
(remaining fields are Go zero values). -/
def speciate (st : Settings) (ext : Ext) :
    List Species → Nat → List Organism → List Species × Nat
  | ss, inno, [] => (ss, inno)
  | ss, inno, child :: rest =>
    match assignChild st ext child ss with
    | some ss' => speciate st ext ss' inno rest
    | none =>
      speciate st ext
        (ss ++ [{ ID := inno, Orgs := [child], Age := 0, BestFitness := 0,
                  BestFitAge := 0, Example := child, currFitness := 0 }])
        (inno + 1) rest

/-- Flattening of a species list, species order then member order
(matches `SpeciesSlice.Organisms` and the body of
`Population.Organisms`). -/
def orgsOf : List Species → List Organism
  | [] => []
  | s :: rest => s.Orgs ++ orgsOf rest

/-- Total organism count of a species list. -/
def orgCount : List Species → Nat
  | [] => 0
  | s :: rest => s.Orgs.length + orgCount rest

/-- `Population.Organisms` (lines 243-257): all organisms across all
species as one ordered sequence. -/
def Population.Organisms (pop : Population) : List Organism :=
  orgsOf pop.Species

/-- `Population.MPC` (lines 261-273): total gene count (nodes plus
connections) over ALL organisms, divided by the number of species. -/
def Population.MPC (pop : Population) : ℚ :=
  let tot : Nat :=
    (pop.Species.map (fun s => (s.Orgs.map (fun o => o.Nodes + o.Conns)).sum)).sum
  (tot : ℚ) / (pop.Species.length : ℚ)

/-- `rollPop` (lines 69-201): update fitness and find the protected
species, gate and cull the survivors, generate children species by species
(with the in-loop count correction), speciate the children into the next
population and prune empty species.  `none` models a panicking step. -/
def rollPop (st : Settings) (ext : Ext) (inno : Nat) (currPop : Population) :
    Option Population :=
  (survivalGate st ext (bestSpecies (currPop.Species.map (calcFitness ext.agg)))
      (currPop.Species.map (calcFitness ext.agg)) ⟨[], 0, 0, 0⟩).bind fun g =>
    (livingLoop st ext (orgsOf g.living) g.popFit g.adjFit g.living
        ⟨[], [], inno, 0⟩).map fun fin =>
      { Generation := currPop.Generation + 1,
        Species := (speciate st ext fin.NextSpecies fin.Inno fin.Children).1.filter
          (fun s => 0 < s.Orgs.length) }

end Neat

/-!
Concrete instances used by the witnesses, counterexamples and code-bug
demonstrations below.  `extZero` fixes the external collaborators to
simple valid instances (aggregation = total retained fitness, identity
mutation, first-parent crossover, zero distance) and makes every random
draw `0`.
-/

namespace Neat

def extZero : Ext :=
  { agg := totalFitness, mutate := id, crossover := fun a _ => a,
    distance := fun _ _ => 0, next := fun _ => 0, rint := fun _ => 0 }

def C1o : Organism := { GID := 1, Nodes := 1, Conns := 1, Fitness0 := 1 }

def C1st : Settings :=
  { PopulationSize := 1, SurvivalPercent := 1, EliteCount := 1,
    AgeToStagnation := 5, Crossover := 0, InterspeciesMating := 0, CompatThreshold := 1 }

def C1pop : Population :=
  { Generation := 1,
    Species := [{ ID := 1, Orgs := [C1o], Age := 0, BestFitness := 0, BestFitAge := 0,
                  Example := C1o, currFitness := 0 }] }

def C1out : Population :=
  { Generation := 2,
    Species := [{ ID := 1, Orgs := [C1o], Age := 1, BestFitness := 1, BestFitAge := 0,
                  Example := C1o, currFitness := 0 }] }

def C2a1 : Organism := { GID := 1, Nodes := 1, Conns := 1, Fitness0 := 2 }
def C2a2 : Organism := { GID := 2, Nodes := 1, Conns := 1, Fitness0 := 1 }
def C2b1 : Organism := { GID := 3, Nodes := 1, Conns := 1, Fitness0 := 4 }
def C2b2 : Organism := { GID := 4, Nodes := 1, Conns := 1, Fitness0 := 3 }

def C2st : Settings :=
  { PopulationSize := 4, SurvivalPercent := 1, EliteCount := 1,
    AgeToStagnation := 5, Crossover := 0, InterspeciesMating := 0, CompatThreshold := 1 }

def C2pop : Population :=
  { Generation := 1,
    Species := [{ ID := 1, Orgs := [C2a1, C2a2], Age := 0, BestFitness := 0, BestFitAge := 0,
                  Example := C2a1, currFitness := 0 },
                { ID := 2, Orgs := [C2b1, C2b2], Age := 0, BestFitness := 0, BestFitAge := 0,
                  Example := C2b1, currFitness := 0 }] }

/-- The first species of `C2pop` as it stands after `calcFitness` and
culling, entering the reproduction loop. -/
def C2Ac : Species :=
  { ID := 1, Orgs := [C2a1, C2a2], Age := 0, BestFitness := 2, BestFitAge := 0,
    Example := C2a1, currFitness := 3 }

def C2out : Population :=
  { Generation := 2,
    Species := [{ ID := 1, Orgs := [C2a1, C2a1, C2a1, C2a1], Age := 1, BestFitness := 2,
                  BestFitAge := 0, Example := C2a1, currFitness := 0 }] }

def C3st : Settings :=
  { PopulationSize := 4, SurvivalPercent := 1/2, EliteCount := 0,
    AgeToStagnation := 5, Crossover := 0, InterspeciesMating := 0, CompatThreshold := 1 }

def C3o : Organism := { GID := 1, Nodes := 1, Conns := 1, Fitness0 := 1 }

def C3sp : Species :=
  { ID := 1, Orgs := [C3o], Age := 0, BestFitness := 1, BestFitAge := 0,
    Example := C3o, currFitness := 1 }

def C3po : Organism := { GID := 2, Nodes := 1, Conns := 1, Fitness0 := 5 }

/-- A two-member species for the amended culling witness. -/
def C3sp2 : Species :=
  { ID := 1, Orgs := [C3o, C3po], Age := 0, BestFitness := 5, BestFitAge := 0,
    Example := C3o, currFitness := 6 }

def C4o : Organism := { GID := 1, Nodes := 1, Conns := 1, Fitness0 := 2 }

/-- A deeply stagnant species (age 10, last improvement at age 0) that is
nevertheless the protected species. -/
def C4b : Species :=
  { ID := 7, Orgs := [C4o], Age := 10, BestFitness := 2, BestFitAge := 0,
    Example := C4o, currFitness := 2 }

def C4st : Settings :=
  { PopulationSize := 2, SurvivalPercent := 1, EliteCount := 1,
    AgeToStagnation := 3, Crossover := 0, InterspeciesMating := 0, CompatThreshold := 1 }

def C4g : Gated :=
  { living := [{ ID := 7, Orgs := [C4o], Age := 10, BestFitness := 2, BestFitAge := 0,
                 Example := C4o, currFitness := 2 }],
    adjFit := 2, popFit := 2, ki := 1 }

def C5pop : Population :=
  { Generation := 1,
    Species := [{ ID := 1,
                  Orgs := [{ GID := 1, Nodes := 2, Conns := 3, Fitness0 := 1 },
                           { GID := 2, Nodes := 3, Conns := 4, Fitness0 := 1 }],
                  Age := 0, BestFitness := 0, BestFitAge := 0,
                  Example := { GID := 1, Nodes := 2, Conns := 3, Fitness0 := 1 },
                  currFitness := 0 }] }

def C6a1 : Organism := { GID := 1, Nodes := 1, Conns := 1, Fitness0 := 2 }
def C6a2 : Organism := { GID := 2, Nodes := 1, Conns := 1, Fitness0 := 1 }

def C6st : Settings :=
  { PopulationSize := 2, SurvivalPercent := 1, EliteCount := 1,
    AgeToStagnation := 5, Crossover := 0, InterspeciesMating := 0, CompatThreshold := 3 }

/-- Valid external collaborators for the C6 run: the compatibility
distance is the discrete metric scaled to 10 (≥ 0 as required), the
crossover operator returns `C6a2`, and the example-index draw is 1. -/
def C6ext : Ext :=
  { agg := totalFitness, mutate := id, crossover := fun _ _ => C6a2,
    distance := fun a b => if a = b then 0 else 10, next := fun _ => 0, rint := fun _ => 1 }

def C6pop : Population :=
  { Generation := 1,
    Species := [{ ID := 5, Orgs := [C6a1, C6a2], Age := 0, BestFitness := 0, BestFitAge := 0,
                  Example := C6a1, currFitness := 0 }] }

def C6out : Population :=
  { Generation := 2,
    Species := [{ ID := 5, Orgs := [C6a2], Age := 1, BestFitness := 2, BestFitAge := 0,
                  Example := C6a2, currFitness := 0 },
                { ID := 100, Orgs := [C6a1], Age := 0, BestFitness := 0, BestFitAge := 0,
                  Example := C6a1, currFitness := 0 }] }

/-- The single species of `C6pop` after `calcFitness` and culling. -/
def C6cull : Species :=
  { ID := 5, Orgs := [C6a1, C6a2], Age := 0, BestFitness := 2, BestFitAge := 0,
    Example := C6a2, currFitness := 3 }

def C6state1 : RollState :=
  { NextSpecies := [{ ID := 5, Orgs := [], Age := 1, BestFitness := 2, BestFitAge := 0,
                      Example := C6a2, currFitness := 0 }],
    Children := [C6a1, C6a2], Inno := 100, K := 5 }

def C7o : Organism := { GID := 1, Nodes := 1, Conns := 1, Fitness0 := 1 }

def C8p : Organism := { GID := 1, Nodes := 1, Conns := 1, Fitness0 := 2 }
def C8q : Organism := { GID := 2, Nodes := 1, Conns := 1, Fitness0 := 1 }

def C8st : Settings :=
  { PopulationSize := 3, SurvivalPercent := 1, EliteCount := 1,
    AgeToStagnation := 5, Crossover := 1, InterspeciesMating := 0, CompatThreshold := 1 }

def C8s : Species :=
  { ID := 1, Orgs := [C8p, C8q], Age := 0, BestFitness := 2, BestFitAge := 0,
    Example := C8p, currFitness := 3 }

def C8out : RollState :=
  { NextSpecies := [{ ID := 1, Orgs := [], Age := 1, BestFitness := 2, BestFitAge := 0,
                      Example := C8p, currFitness := 0 }],
    Children := [C8p, C8p, C8p], Inno := 50, K := 10 }

def C9p : Organism := { GID := 7, Nodes := 1, Conns := 1, Fitness0 := 1 }

/-- An alternative crossover operator, to exhibit that the singleton
dispatch never consults it. -/
def C9f : Organism → Organism → Organism := fun _ b => b

def C10pop : Population :=
  { Generation := 1,
    Species := [{ ID := 1,
                  Orgs := [{ GID := 1, Nodes := 1, Conns := 1, Fitness0 := 0 },
                           { GID := 2, Nodes := 1, Conns := 1, Fitness0 := -1 }],
                  Age := 0, BestFitness := 0, BestFitAge := 0,
                  Example := { GID := 1, Nodes := 1, Conns := 1, Fitness0 := 0 },
                  currFitness := 0 }] }

end Neat

namespace Neat

theorem orgCount_append (a b : List Species) :
    orgCount (a ++ b) = orgCount a + orgCount b := by
  induction a with
  | nil => simp [orgCount]
  | cons s rest ih => simp [orgCount, ih]; omega

theorem length_orgsOf (ss : List Species) : (orgsOf ss).length = orgCount ss := by
  induction ss with
  | nil => rfl
  | cons s rest ih => simp [orgsOf, orgCount, ih]

theorem topUp_length (st : Settings) (ext : Ext) (popOrgs : List Organism) (popFit : ℚ) :
    ∀ (c : Nat) (cs : List Organism) (k : Nat) (out : List Organism × Nat),
      topUp st ext popOrgs popFit c cs k = some out → out.1.length = cs.length + c := by
  intro c
  induction c with
  | zero =>
    intro cs k out h
    simp only [topUp, Option.some.injEq] at h
    rw [← h]
    simp
  | succ c ih =>
    intro cs k out h
    simp only [topUp, Option.bind_eq_some] at h
    obtain ⟨p1, _, p2, _, h2⟩ := h
    have := ih (cs ++ [ext.mutate (ext.crossover p1 p2)]) (k + 2) out h2
    simp at this; omega

theorem correction_length (st : Settings) (ext : Ext) (popOrgs : List Organism)
    (popFit : ℚ) (cs : List Organism) (k : Nat) (out : List Organism × Nat)
    (h : correction st ext popOrgs popFit cs k = some out) :
    out.1.length = st.PopulationSize := by
  unfold correction at h
  split at h
  · rename_i hlt
    have hout : out.1 = cs.take st.PopulationSize := by
      simp only [Option.some.injEq] at h; rw [← h]
    rw [hout, List.length_take]; omega
  · rename_i hge
    have := topUp_length st ext popOrgs popFit (st.PopulationSize - cs.length) cs k out h
    omega

theorem processSpecies_children_length (st : Settings) (ext : Ext)
    (popOrgs : List Organism) (popFit adjFit : ℚ) (state : RollState) (currS : Species)
    (out : RollState) (h : processSpecies st ext popOrgs popFit adjFit state currS = some out) :
    out.Children.length = st.PopulationSize := by
  simp only [processSpecies, Option.bind_eq_some, Option.map_eq_some'] at h
  obtain ⟨st1, _, r, hc, hout⟩ := h
  have := correction_length st ext popOrgs popFit st1.Children st1.K r hc
  rw [← hout]
  exact this

theorem processSpecies_nextCount (st : Settings) (ext : Ext)
    (popOrgs : List Organism) (popFit adjFit : ℚ) (state : RollState) (currS : Species)
    (out : RollState) (h : processSpecies st ext popOrgs popFit adjFit state currS = some out) :
    orgCount out.NextSpecies = orgCount state.NextSpecies := by
  simp only [processSpecies, Option.bind_eq_some, Option.map_eq_some'] at h
  obtain ⟨st1, hso, r, _, hout⟩ := h
  simp only [speciesOffspring, Option.map_eq_some'] at hso
  obtain ⟨q, _, hst1⟩ := hso
  rw [← hout, ← hst1]
  simp [orgCount_append, orgCount]

theorem livingLoop_children_length (st : Settings) (ext : Ext)
    (popOrgs : List Organism) (popFit adjFit : ℚ) :
    ∀ (l : List Species) (state fin : RollState),
      livingLoop st ext popOrgs popFit adjFit l state = some fin → l ≠ [] →
      fin.Children.length = st.PopulationSize := by
  intro l
  induction l with
  | nil => intro state fin _ hne; exact absurd rfl hne
  | cons s rest ih =>
    intro state fin h _
    simp only [livingLoop, Option.bind_eq_some] at h
    obtain ⟨st', h1, h2⟩ := h
    cases rest with
    | nil =>
      simp only [livingLoop, Option.some.injEq] at h2
      rw [← h2]
      exact processSpecies_children_length st ext popOrgs popFit adjFit state s st' h1
    | cons t ts => exact ih st' fin h2 (by simp)

theorem livingLoop_nextCount (st : Settings) (ext : Ext)
    (popOrgs : List Organism) (popFit adjFit : ℚ) :
    ∀ (l : List Species) (state fin : RollState),
      livingLoop st ext popOrgs popFit adjFit l state = some fin →
      orgCount fin.NextSpecies = orgCount state.NextSpecies := by
  intro l
  induction l with
  | nil =>
    intro state fin h
    simp only [livingLoop, Option.some.injEq] at h
    rw [← h]
  | cons s rest ih =>
    intro state fin h
    simp only [livingLoop, Option.bind_eq_some] at h
    obtain ⟨st', h1, h2⟩ := h
    rw [ih st' fin h2,
      processSpecies_nextCount st ext popOrgs popFit adjFit state s st' h1]

end Neat

namespace Neat

theorem assignChild_orgCount (st : Settings) (ext : Ext) (child : Organism) :
    ∀ (ss ss' : List Species), assignChild st ext child ss = some ss' →
      orgCount ss' = orgCount ss + 1 := by
  intro ss
  induction ss with
  | nil => intro ss' h; simp [assignChild] at h
  | cons s rest ih =>
    intro ss' h
    simp only [assignChild] at h
    split at h
    · simp only [Option.some.injEq] at h
      rw [← h]
      simp [orgCount]; omega
    · simp only [Option.map_eq_some'] at h
      obtain ⟨rest', hr, hss'⟩ := h
      rw [← hss']
      simp [orgCount, ih rest' hr]; omega

theorem speciate_orgCount (st : Settings) (ext : Ext) :
    ∀ (cs : List Organism) (ss : List Species) (inno : Nat),
      orgCount (speciate st ext ss inno cs).1 = orgCount ss + cs.length := by
  intro cs
  induction cs with
  | nil => intro ss inno; simp [speciate]
  | cons child rest ih =>
    intro ss inno
    simp only [speciate]
    cases ha : assignChild st ext child ss with
    | some ss' =>
      rw [ih ss' inno, assignChild_orgCount st ext child ss ss' ha]
      simp; omega
    | none =>
      rw [ih _ (inno + 1), orgCount_append]
      simp [orgCount]; omega

theorem orgCount_filter_pos (ss : List Species) :
    orgCount (ss.filter (fun s => 0 < s.Orgs.length)) = orgCount ss := by
  induction ss with
  | nil => rfl
  | cons s rest ih =>
    by_cases hs : 0 < s.Orgs.length
    · simp [List.filter_cons, hs, orgCount, ih]
    · have : s.Orgs.length = 0 := by omega
      simp [List.filter_cons, hs, orgCount, ih, this]

theorem bestScanOrgs_fst (s : Species) :
    ∀ (orgs : List Organism) (acc : Option Species × ℚ),
      (bestScanOrgs s orgs acc).1 = acc.1 ∨ (bestScanOrgs s orgs acc).1 = some s := by
  intro orgs
  induction orgs with
  | nil => intro acc; left; rfl
  | cons o rest ih =>
    intro acc
    simp only [bestScanOrgs]
    split
    · rcases ih (some s, o.Fitness0) with h | h
      · right; exact h
      · right; exact h
    · exact ih acc

theorem bestScan_fst :
    ∀ (ss : List Species) (acc : Option Species × ℚ),
      (bestScan ss acc).1 = acc.1 ∨ ∃ s ∈ ss, (bestScan ss acc).1 = some s := by
  intro ss
  induction ss with
  | nil => intro acc; left; rfl
  | cons s rest ih =>
    intro acc
    simp only [bestScan]
    rcases ih (bestScanOrgs s s.Orgs acc) with h | ⟨t, ht, h⟩
    · rcases bestScanOrgs_fst s s.Orgs acc with h2 | h2
      · left; rw [h, h2]
      · right; exact ⟨s, by simp, by rw [h, h2]⟩
    · right; exact ⟨t, by simp [ht], h⟩

theorem bestSpecies_mem (ss : List Species) (b : Species)
    (h : bestSpecies ss = some b) : b ∈ ss := by
  unfold bestSpecies at h
  rcases bestScan_fst ss (none, 0) with h2 | ⟨s, hs, h2⟩
  · rw [h] at h2; simp at h2
  · rw [h] at h2
    simp only [Option.some.injEq] at h2
    rw [h2]; exact hs

theorem cullSpecies_ID (st : Settings) (ri : Nat) (s s' : Species)
    (h : cullSpecies st ri s = some s') : s'.ID = s.ID := by
  simp only [cullSpecies] at h
  split at h
  · simp at h
  · simp only [Option.map_eq_some'] at h
    obtain ⟨exo, _, h2⟩ := h
    rw [← h2]

theorem survivalGate_extends (st : Settings) (ext : Ext) (bestS : Option Species) :
    ∀ (ss : List Species) (acc : Gated) (g : Gated),
      survivalGate st ext bestS ss acc = some g →
      ∃ t, g.living = acc.living ++ t := by
  intro ss
  induction ss with
  | nil =>
    intro acc g h
    simp only [survivalGate, Option.some.injEq] at h
    exact ⟨[], by rw [← h]; simp⟩
  | cons s rest ih =>
    intro acc g h
    cases bestS with
    | none => simp [survivalGate] at h
    | some b =>
      simp only [survivalGate] at h
      split at h
      · simp only [Option.bind_eq_some] at h
        obtain ⟨s', _, h2⟩ := h
        obtain ⟨t, ht⟩ := ih _ g h2
        exact ⟨[s'] ++ t, by rw [ht]; simp⟩
      · exact ih acc g h

theorem survivalGate_best_mem (st : Settings) (ext : Ext) (b : Species) :
    ∀ (ss : List Species) (acc : Gated) (g : Gated), b ∈ ss →
      survivalGate st ext (some b) ss acc = some g →
      ∃ s', s' ∈ g.living ∧ s'.ID = b.ID := by
  intro ss
  induction ss with
  | nil => intro acc g hmem _; simp at hmem
  | cons s rest ih =>
    intro acc g hmem h
    simp only [survivalGate] at h
    rcases List.mem_cons.mp hmem with hb | hb
    · rw [if_pos (Or.inl (by rw [hb]))] at h
      simp only [Option.bind_eq_some] at h
      obtain ⟨s', hcull, h2⟩ := h
      obtain ⟨t, ht⟩ := survivalGate_extends st ext (some b) rest _ g h2
      refine ⟨s', ?_, ?_⟩
      · rw [ht]; simp
      · rw [cullSpecies_ID st _ s s' hcull, hb]
    · split at h
      · simp only [Option.bind_eq_some] at h
        obtain ⟨s', _, h2⟩ := h
        exact ih _ g hb h2
      · exact ih acc g hb h

theorem survivalGate_cons_best (st : Settings) (ext : Ext) (bestS : Option Species)
    (s : Species) (rest : List Species) (acc : Gated) (g : Gated)
    (h : survivalGate st ext bestS (s :: rest) acc = some g) :
    ∃ b, bestS = some b := by
  simp only [survivalGate] at h
  cases bestS with
  | none => simp at h
  | some b => exact ⟨b, rfl⟩

end Neat

namespace Neat

/-- C1: for every population produced by `rollPop` from a well-formed
(nonempty-species) current population, the total number of organisms
across all species of the next population equals the configured
population size exactly.  Success of `rollPop` (`= some out`) excludes the
panicking paths, which never produce a population at all. -/
theorem rollPop_population_size (st : Settings) (ext : Ext) (inno : Nat)
    (pop out : Population) (hne : pop.Species ≠ [])
    (h : rollPop st ext inno pop = some out) :
    out.Organisms.length = st.PopulationSize := by
  simp only [rollPop, Option.bind_eq_some, Option.map_eq_some'] at h
  obtain ⟨g, hg, fin, hl, hout⟩ := h
  have hmapne : pop.Species.map (calcFitness ext.agg) ≠ [] := by
    intro hmap
    exact hne (List.map_eq_nil_iff.mp hmap)
  obtain ⟨s0, ss0, hcons⟩ := List.exists_cons_of_ne_nil hmapne
  rw [hcons] at hg
  obtain ⟨b, hb⟩ := survivalGate_cons_best st ext _ s0 ss0 _ g hg
  rw [hb] at hg
  have hmemb : b ∈ s0 :: ss0 := bestSpecies_mem _ b hb
  have hlivne : g.living ≠ [] := by
    obtain ⟨s', hs', _⟩ := survivalGate_best_mem st ext b (s0 :: ss0) _ g hmemb hg
    intro hnil
    rw [hnil] at hs'
    simp at hs'
  have hchild := livingLoop_children_length st ext (orgsOf g.living) g.popFit g.adjFit
    g.living _ fin hl hlivne
  have hnext := livingLoop_nextCount st ext (orgsOf g.living) g.popFit g.adjFit
    g.living _ fin hl
  simp only [orgCount] at hnext
  rw [← hout]
  simp only [Population.Organisms]
  rw [length_orgsOf, orgCount_filter_pos, speciate_orgCount, hnext, hchild]
  omega

end Neat

namespace Neat

theorem totalFitness_cons (o : Organism) (l : List Organism) :
    totalFitness (o :: l) = o.Fitness0 + totalFitness l := by
  simp [totalFitness]

/-- Witness for C1: a concrete one-species, size-1 population rolled to
the next generation. -/
theorem rollPop_population_size_witness :
    C1pop.Species ≠ [] ∧ C1out.Organisms.length = C1st.PopulationSize :=
  ⟨by decide,
    rollPop_population_size C1st extZero 100 C1pop C1out (by decide)
      (by with_unfolding_all decide)⟩

/-- C7: the roulette-wheel primitive `tournament`, invoked over an empty
candidate pool, or over a pool whose accumulated (prefix-sum) fitness
never reaches the drawn target, silently returns the unset (`none`, Go
nil) champion rather than signalling an error. -/
theorem tournament_degenerate (orgs : List Organism) (totFit r : ℚ) :
    tournament [] totFit r = none ∧
      ((∀ n : Nat, totalFitness (orgs.take n) < r * totFit) →
        tournament orgs totFit r = none) := by
  constructor
  · rfl
  · intro hlt
    have walk : ∀ (l : List Organism) (pre : ℚ),
        (∀ n : Nat, pre + totalFitness (l.take n) < r * totFit) →
        tournamentWalk l (r * totFit) pre = none := by
      intro l
      induction l with
      | nil => intro pre _; rfl
      | cons o rest ih =>
        intro pre hpre
        simp only [tournamentWalk]
        rw [if_neg]
        · apply ih
          intro n
          have h1 := hpre (n + 1)
          rw [List.take_succ_cons, totalFitness_cons] at h1
          linarith
        · have h1 := hpre 1
          rw [List.take_succ_cons, List.take_zero, totalFitness_cons] at h1
          simp only [totalFitness, List.map_nil, List.sum_nil] at h1
          simp only [ge_iff_le, not_le]
          linarith
    apply walk
    intro n
    have := hlt n
    linarith
  
/-- Witness for C7: the empty pool, and a singleton pool walked with target
5 while its accumulated fitness never exceeds 1. -/
theorem tournament_degenerate_witness :
    tournament [] 10 (1/2) = none ∧ tournament [C7o] 10 (1/2) = none := by
  refine ⟨(tournament_degenerate [] 10 (1/2)).1,
    (tournament_degenerate [C7o] 10 (1/2)).2 ?_⟩
  intro n
  cases n with
  | zero => with_unfolding_all decide
  | succ m =>
    rw [List.take_succ_cons, List.take_nil]
    with_unfolding_all decide

theorem bestScanOrgs_nonpos (s : Species) :
    ∀ (orgs : List Organism), (∀ o ∈ orgs, o.Fitness0 ≤ 0) →
      bestScanOrgs s orgs (none, 0) = (none, 0) := by
  intro orgs
  induction orgs with
  | nil => intro _; rfl
  | cons o rest ih =>
    intro hle
    simp only [bestScanOrgs]
    rw [if_neg]
    · exact ih (fun x hx => hle x (by simp [hx]))
    · have := hle o (by simp)
      simp
      linarith

theorem bestScan_nonpos :
    ∀ (ss : List Species), (∀ s ∈ ss, ∀ o ∈ s.Orgs, o.Fitness0 ≤ 0) →
      bestScan ss (none, 0) = (none, 0) := by
  intro ss
  induction ss with
  | nil => intro _; rfl
  | cons s rest ih =>
    intro h
    simp only [bestScan]
    rw [bestScanOrgs_nonpos s s.Orgs (h s (by simp))]
    exact ih (fun t ht o ho => h t (by simp [ht]) o ho)

theorem mem_orgsOf (ss : List Species) (s : Species) (o : Organism)
    (hs : s ∈ ss) (ho : o ∈ s.Orgs) : o ∈ orgsOf ss := by
  induction ss with
  | nil => simp at hs
  | cons t rest ih =>
    rcases List.mem_cons.mp hs with h | h
    · rw [h] at ho
      exact List.mem_append_left _ ho
    · exact List.mem_append_right _ (ih h)

/-- C10: `rollPop` has the unstated precondition that some organism has
positive primary fitness: the best scan starts at 0 with a strict
comparison, so if every fitness is nonpositive the protected species stays
`none` and the survival gate dereferences the nil pointer, crashing the
step (modelled: `rollPop` returns `none`). -/
theorem rollPop_nil_best_crash (st : Settings) (ext : Ext) (inno : Nat)
    (pop : Population) (hne : pop.Species ≠ [])
    (hfit : ∀ o ∈ pop.Organisms, o.Fitness0 ≤ 0) :
    bestSpecies (pop.Species.map (calcFitness ext.agg)) = none ∧
      rollPop st ext inno pop = none := by
  have hbest : bestSpecies (pop.Species.map (calcFitness ext.agg)) = none := by
    unfold bestSpecies
    rw [bestScan_nonpos]
    intro s hs o ho
    obtain ⟨s0, hs0, hmap⟩ := List.mem_map.mp hs
    rw [← hmap] at ho
    have ho0 : o ∈ s0.Orgs := ho
    exact hfit o (mem_orgsOf pop.Species s0 o hs0 ho0)
  refine ⟨hbest, ?_⟩
  have hmapne : pop.Species.map (calcFitness ext.agg) ≠ [] := by
    intro hmap
    exact hne (List.map_eq_nil_iff.mp hmap)
  obtain ⟨s0, ss0, hcons⟩ := List.exists_cons_of_ne_nil hmapne
  have hbest2 : bestSpecies (s0 :: ss0) = none := by rw [← hcons]; exact hbest
  simp only [rollPop, hcons, hbest2, survivalGate, Option.none_bind]

/-- Witness for C10: a nonempty population whose organisms have fitness 0
and -1 makes the step crash. -/
theorem rollPop_nil_best_crash_witness :
    bestSpecies (C10pop.Species.map (calcFitness extZero.agg)) = none ∧
      rollPop C4st extZero 100 C10pop = none :=
  rollPop_nil_best_crash C4st extZero 100 C10pop (by decide)
    (by with_unfolding_all decide)

/-- C4: the species owning the organism with the highest primary fitness
(the protected species) is always among the surviving species, with no
hypothesis whatsoever on its stagnation age. -/
theorem best_species_survives (st : Settings) (ext : Ext) (ss : List Species)
    (acc : Gated) (g : Gated) (b : Species) (hb : bestSpecies ss = some b)
    (hg : survivalGate st ext (bestSpecies ss) ss acc = some g) :
    ∃ s', s' ∈ g.living ∧ s'.ID = b.ID := by
  rw [hb] at hg
  exact survivalGate_best_mem st ext b ss acc g (bestSpecies_mem ss b hb) hg

/-- Witness for C4: a protected species stagnant for 10 generations
(threshold 3) still survives the gate. -/
theorem best_species_survives_witness :
    C4st.AgeToStagnation ≤ C4b.Age - C4b.BestFitAge ∧
      ∃ s', s' ∈ C4g.living ∧ s'.ID = C4b.ID :=
  ⟨by decide,
    best_species_survives C4st extZero [C4b] ⟨[], 0, 0, 0⟩ C4g C4b
      (by with_unfolding_all decide) (by with_unfolding_all decide)⟩

end Neat

namespace Neat

theorem offspringLoop_len_noskip (st : Settings) (ext : Ext) (orgs : List Organism)
    (orgFit : ℚ) (popOrgs : List Organism) (popFit : ℚ)
    (hskip : ∀ j, ¬ ext.next j < st.InterspeciesMating) :
    ∀ (n : Nat) (cs : List Organism) (inno k : Nat) (out : List Organism × Nat × Nat),
      offspringLoop st ext orgs orgFit popOrgs popFit n cs inno k = some out →
      out.1.length = cs.length + n := by
  intro n
  induction n with
  | zero =>
    intro cs inno k out h
    simp only [offspringLoop, Option.some.injEq] at h
    rw [← h]
    simp
  | succ n ih =>
    intro cs inno k out h
    simp only [offspringLoop] at h
    rw [if_neg (hskip k)] at h
    simp only [Option.bind_eq_some] at h
    obtain ⟨p1, hp1, h⟩ := h
    split at h
    · have := ih _ _ _ _ h
      simp at this
      omega
    · split at h
      · have := ih _ _ _ _ h
        simp at this
        omega
      · simp only [Option.bind_eq_some] at h
        obtain ⟨p2, hp2, h⟩ := h
        have := ih _ _ _ _ h
        simp at this
        omega

/-- C8: for a surviving species processed by the reproduction phase, the
offspring budget is `floor(currFitness / adjFit * PopulationSize)` and the
number of elites actually copied (`min EliteCount size`) is deducted from
that budget before non-elite offspring are generated: on a run in which no
slot is skipped by the interspecies-mating draw, the children grow by
exactly `elites + (budget - elites)` entries. -/
theorem offspring_budget (st : Settings) (ext : Ext) (popOrgs : List Organism)
    (popFit adjFit : ℚ) (state : RollState) (currS : Species) (out : RollState)
    (h : speciesOffspring st ext popOrgs popFit adjFit state currS = some out)
    (hskip : ∀ j, ¬ ext.next j < st.InterspeciesMating)
    (hnn : 0 ≤ currS.currFitness / adjFit * (st.PopulationSize : ℚ)) :
    out.Children.length = state.Children.length + min st.EliteCount currS.Orgs.length
      + ((currS.currFitness / adjFit * (st.PopulationSize : ℚ)).floor
          - (min st.EliteCount currS.Orgs.length : Int)).toNat := by
  simp only [speciesOffspring, Option.map_eq_some'] at h
  obtain ⟨r, hr, hout⟩ := h
  have hg : goInt (currS.currFitness / adjFit * (st.PopulationSize : ℚ))
      = (currS.currFitness / adjFit * (st.PopulationSize : ℚ)).floor := by
    unfold goInt
    rw [if_neg (not_lt.mpr hnn)]
  rw [hg] at hr
  have hlen := offspringLoop_len_noskip st ext currS.Orgs (totalFitness currS.Orgs)
    popOrgs popFit hskip _ _ _ _ r hr
  rw [← hout]
  simp only [List.length_append, List.length_take] at hlen
  show r.1.length = _
  rw [hlen]
  have hmm : min (min st.EliteCount currS.Orgs.length) currS.Orgs.length
      = min st.EliteCount currS.Orgs.length := by omega
  rw [hmm, Nat.cast_min]

/-- Witness for C8: a species of two survivors, budget 3 and one elite
generates exactly two non-elite offspring. -/
theorem offspring_budget_witness :
    C8out.Children.length
      = (⟨[], [], 50, 0⟩ : RollState).Children.length + min C8st.EliteCount C8s.Orgs.length
        + ((C8s.currFitness / 3 * (C8st.PopulationSize : ℚ)).floor
            - (min C8st.EliteCount C8s.Orgs.length : Int)).toNat :=
  offspring_budget C8st extZero [C8p, C8q] 3 3 ⟨[], [], 50, 0⟩ C8s C8out
    (by with_unfolding_all decide) (fun j => lt_irrefl 0)
    (by with_unfolding_all decide)

theorem tournament_singleton (p : Organism) (totFit r : ℚ) (q : Organism)
    (h : tournament [p] totFit r = some q) : q = p := by
  simp only [tournament, tournamentWalk] at h
  split at h
  · simp only [Option.some.injEq] at h
    exact h.symm
  · simp at h

theorem singletonLoop_crossover_free (st : Settings) (ext : Ext)
    (f : Organism → Organism → Organism) (p : Organism) (orgFit : ℚ)
    (popOrgs : List Organism) (popFit : ℚ) :
    ∀ (n : Nat) (cs : List Organism) (inno k : Nat),
      offspringLoop st { ext with crossover := f } [p] orgFit popOrgs popFit n cs inno k
        = offspringLoop st ext [p] orgFit popOrgs popFit n cs inno k := by
  intro n
  induction n with
  | zero => intro cs inno k; rfl
  | succ n ih =>
    intro cs inno k
    simp only [offspringLoop, List.length_singleton]
    split
    · exact ih cs inno (k + 1)
    · cases tournament [p] orgFit (ext.next (k + 1)) with
      | none => rfl
      | some p1 =>
        simp only [Option.some_bind, if_pos rfl]
        exact ih (cs ++ [ext.mutate (cloneOrg p1 inno)]) (inno + 1) (k + 2)

theorem singletonLoop_children (st : Settings) (ext : Ext) (p : Organism)
    (orgFit : ℚ) (popOrgs : List Organism) (popFit : ℚ) :
    ∀ (n : Nat) (cs : List Organism) (inno k : Nat) (out : List Organism × Nat × Nat),
      offspringLoop st ext [p] orgFit popOrgs popFit n cs inno k = some out →
      ∀ c ∈ out.1, c ∈ cs ∨ ∃ j, c = ext.mutate (cloneOrg p j) := by
  intro n
  induction n with
  | zero =>
    intro cs inno k out h c hc
    simp only [offspringLoop, Option.some.injEq] at h
    rw [← h] at hc
    exact Or.inl hc
  | succ n ih =>
    intro cs inno k out h c hc
    simp only [offspringLoop, List.length_singleton] at h
    split at h
    · exact ih _ _ _ out h c hc
    · simp only [Option.bind_eq_some] at h
      obtain ⟨p1, hp1, h⟩ := h
      rw [tournament_singleton p orgFit _ p1 hp1] at h
      rcases ih _ _ _ out h c hc with hmem | hex
      · rcases List.mem_append.mp hmem with hmem2 | hmem2
        · exact Or.inl hmem2
        · exact Or.inr ⟨inno, List.mem_singleton.mp hmem2⟩
      · exact Or.inr hex

/-- C9: for a species with exactly one surviving organism, the dispatch of
non-elite offspring is mutation-only.  First: the loop result is
independent of the crossover operator (the crossover branch is
unreachable).  Second: every child it appends is the mutated, fresh-id
clone of the single parent. -/
theorem singleton_mutation_only (st : Settings) (ext : Ext)
    (f : Organism → Organism → Organism) (p : Organism) (orgFit : ℚ)
    (popOrgs : List Organism) (popFit : ℚ) (n : Nat) (cs : List Organism)
    (inno k : Nat) :
    (offspringLoop st { ext with crossover := f } [p] orgFit popOrgs popFit n cs inno k
      = offspringLoop st ext [p] orgFit popOrgs popFit n cs inno k)
    ∧ ∀ out, offspringLoop st ext [p] orgFit popOrgs popFit n cs inno k = some out →
        ∀ c ∈ out.1, c ∈ cs ∨ ∃ j, c = ext.mutate (cloneOrg p j) :=
  ⟨singletonLoop_crossover_free st ext f p orgFit popOrgs popFit n cs inno k,
    fun out h c hc =>
      singletonLoop_children st ext p orgFit popOrgs popFit n cs inno k out h c hc⟩

/-- Witness for C9: one slot over the singleton pool `[C9p]` produces
exactly the mutated clone of `C9p`, and swapping in a different crossover
operator leaves the run unchanged. -/
theorem singleton_mutation_only_witness :
    (offspringLoop C8st { extZero with crossover := C9f } [C9p] 1 [] 0 1 [] 0 0
      = offspringLoop C8st extZero [C9p] 1 [] 0 1 [] 0 0)
    ∧ (cloneOrg C9p 0 ∈ ([] : List Organism)
        ∨ ∃ j, cloneOrg C9p 0 = extZero.mutate (cloneOrg C9p j)) :=
  ⟨(singleton_mutation_only C8st extZero C9f C9p 1 [] 0 1 [] 0 0).1,
    (singleton_mutation_only C8st extZero C9f C9p 1 [] 0 1 [] 0 0).2
      ([cloneOrg C9p 0], 1, 2) (by with_unfolding_all decide)
      (cloneOrg C9p 0) (by with_unfolding_all decide)⟩

end Neat

namespace Neat

theorem length_insertDesc (o : Organism) (l : List Organism) :
    (insertDesc o l).length = l.length + 1 := by
  induction l with
  | nil => rfl
  | cons x rest ih =>
    simp only [insertDesc]
    split
    · simp
    · simp [ih]

theorem length_sortDesc (l : List Organism) : (sortDesc l).length = l.length := by
  induction l with
  | nil => rfl
  | cons o rest ih => simp [sortDesc, length_insertDesc, ih]

theorem mem_insertDesc (x o : Organism) (l : List Organism) :
    x ∈ insertDesc o l ↔ x = o ∨ x ∈ l := by
  induction l with
  | nil => simp [insertDesc]
  | cons y rest ih =>
    simp only [insertDesc]
    split
    · simp only [List.mem_cons]
    · simp only [List.mem_cons, ih]
      tauto

theorem pairwise_insertDesc (o : Organism) (l : List Organism)
    (h : l.Pairwise (fun a b => b.Fitness0 ≤ a.Fitness0)) :
    (insertDesc o l).Pairwise (fun a b => b.Fitness0 ≤ a.Fitness0) := by
  induction l with
  | nil => simp [insertDesc]
  | cons x rest ih =>
    rcases List.pairwise_cons.mp h with ⟨hx, hrest⟩
    simp only [insertDesc]
    split
    · rename_i hlt
      refine List.pairwise_cons.mpr ⟨?_, h⟩
      intro y hy
      rcases List.mem_cons.mp hy with hy1 | hy2
      · rw [hy1]; exact le_of_lt hlt
      · exact le_trans (hx y hy2) (le_of_lt hlt)
    · rename_i hnlt
      refine List.pairwise_cons.mpr ⟨?_, ih hrest⟩
      intro y hy
      rcases (mem_insertDesc y o rest).mp hy with hy1 | hy2
      · rw [hy1]; exact not_lt.mp hnlt
      · exact hx y hy2

theorem pairwise_sortDesc (l : List Organism) :
    (sortDesc l).Pairwise (fun a b => b.Fitness0 ≤ a.Fitness0) := by
  induction l with
  | nil => simp [sortDesc]
  | cons o rest ih => exact pairwise_insertDesc o _ ih

theorem keepCount_eq (st : Settings) (n : Nat) :
    keepCount st n
      = min n (max st.EliteCount (st.SurvivalPercent * (n : ℚ)).floor.toNat) := by
  simp only [keepCount]
  generalize (st.SurvivalPercent * (n : ℚ)).floor.toNat = k0
  split <;> split <;> omega

/-- C3 counterexample: with `EliteCount = 0`, `SurvivalPercent = 1/2` and a
species of one organism, the keep-count is 0 — not clamped up to 1 — and
the culling step crashes (`random.Int(0)` panic, modelled `none`) instead
of retaining at least one organism. -/
theorem cull_zero_keep_crash :
    keepCount C3st C3sp.Orgs.length = 0 ∧ cullSpecies C3st 0 C3sp = none := by
  refine ⟨?_, ?_⟩ <;> with_unfolding_all decide

/-- C3 (amended): culling retains exactly
`min(size, max(eliteCount, floor(survivalPercent * size)))` organisms —
with no lower clamp to 1 — sorted by primary fitness descending, whenever
that count is positive (when it is zero the step panics instead). -/
theorem cull_keep_count (st : Settings) (ri : Nat) (s : Species)
    (hk : 0 < keepCount st s.Orgs.length) :
    keepCount st s.Orgs.length
        = min s.Orgs.length
            (max st.EliteCount (st.SurvivalPercent * (s.Orgs.length : ℚ)).floor.toNat)
    ∧ ∃ s', cullSpecies st ri s = some s'
        ∧ s'.Orgs.length = keepCount st s.Orgs.length
        ∧ s'.Orgs.Pairwise (fun a b => b.Fitness0 ≤ a.Fitness0) := by
  have hle : keepCount st s.Orgs.length ≤ s.Orgs.length := by
    rw [keepCount_eq]
    omega
  have hlen : ((sortDesc s.Orgs).take (keepCount st s.Orgs.length)).length
      = keepCount st s.Orgs.length := by
    rw [List.length_take, length_sortDesc]
    omega
  have hidx : ri % keepCount st s.Orgs.length
      < ((sortDesc s.Orgs).take (keepCount st s.Orgs.length)).length := by
    rw [hlen]
    exact Nat.mod_lt ri hk
  refine ⟨by rw [keepCount_eq], ?_⟩
  simp only [cullSpecies]
  rw [if_neg (by omega)]
  rw [List.getElem?_eq_getElem hidx]
  simp only [Option.map_some']
  refine ⟨_, rfl, ?_, ?_⟩
  · exact hlen
  · exact (pairwise_sortDesc s.Orgs).sublist (List.take_sublist _ _)

/-- Witness for the amended C3: a two-organism species with
`SurvivalPercent = 1/2`, `EliteCount = 0` keeps exactly one organism,
sorted descending. -/
theorem cull_keep_count_witness :
    0 < keepCount C3st C3sp2.Orgs.length ∧
      (keepCount C3st C3sp2.Orgs.length
          = min C3sp2.Orgs.length
              (max C3st.EliteCount
                (C3st.SurvivalPercent * (C3sp2.Orgs.length : ℚ)).floor.toNat)
        ∧ ∃ s', cullSpecies C3st 0 C3sp2 = some s'
            ∧ s'.Orgs.length = keepCount C3st C3sp2.Orgs.length
            ∧ s'.Orgs.Pairwise (fun a b => b.Fitness0 ≤ a.Fitness0)) :=
  ⟨by with_unfolding_all decide,
    cull_keep_count C3st 0 C3sp2 (by with_unfolding_all decide)⟩

/-- C5 counterexample: the MPC of a one-species population whose two
organisms have total gene counts 5 and 7 is not 6. -/
theorem MPC_round_trip_counterexample : C5pop.MPC ≠ 6 := by
  with_unfolding_all decide

/-- C5 (amended): that query returns 12 — `MPC` averages the per-species
gene-count totals over the species count (here one species), not over the
organism count. -/
theorem MPC_round_trip : C5pop.MPC = 12 := by
  with_unfolding_all decide

end Neat

namespace Neat

theorem offspringLoop_extends (st : Settings) (ext : Ext) (orgs : List Organism)
    (orgFit : ℚ) (popOrgs : List Organism) (popFit : ℚ) :
    ∀ (n : Nat) (cs : List Organism) (inno k : Nat) (out : List Organism × Nat × Nat),
      offspringLoop st ext orgs orgFit popOrgs popFit n cs inno k = some out →
      ∃ t, out.1 = cs ++ t := by
  intro n
  induction n with
  | zero =>
    intro cs inno k out h
    simp only [offspringLoop, Option.some.injEq] at h
    exact ⟨[], by rw [← h]; simp⟩
  | succ n ih =>
    intro cs inno k out h
    simp only [offspringLoop] at h
    split at h
    · exact ih _ _ _ out h
    · simp only [Option.bind_eq_some] at h
      obtain ⟨p1, _, h⟩ := h
      split at h
      · obtain ⟨t, ht⟩ := ih _ _ _ out h
        exact ⟨_, by rw [ht, List.append_assoc]⟩
      · split at h
        · obtain ⟨t, ht⟩ := ih _ _ _ out h
          exact ⟨_, by rw [ht, List.append_assoc]⟩
        · simp only [Option.bind_eq_some] at h
          obtain ⟨p2, _, h⟩ := h
          obtain ⟨t, ht⟩ := ih _ _ _ out h
          exact ⟨_, by rw [ht, List.append_assoc]⟩

theorem topUp_extends (st : Settings) (ext : Ext) (popOrgs : List Organism) (popFit : ℚ) :
    ∀ (c : Nat) (cs : List Organism) (k : Nat) (out : List Organism × Nat),
      topUp st ext popOrgs popFit c cs k = some out → ∃ t, out.1 = cs ++ t := by
  intro c
  induction c with
  | zero =>
    intro cs k out h
    simp only [topUp, Option.some.injEq] at h
    exact ⟨[], by rw [← h]; simp⟩
  | succ c ih =>
    intro cs k out h
    simp only [topUp, Option.bind_eq_some] at h
    obtain ⟨p1, _, p2, _, h⟩ := h
    obtain ⟨t, ht⟩ := ih _ _ out h
    exact ⟨_, by rw [ht, List.append_assoc]⟩

theorem correction_keeps_front (st : Settings) (ext : Ext) (popOrgs : List Organism)
    (popFit : ℚ) (pre suf : List Organism) (k : Nat) (out : List Organism × Nat)
    (hle : pre.length ≤ st.PopulationSize)
    (h : correction st ext popOrgs popFit (pre ++ suf) k = some out) :
    ∃ t, out.1 = pre ++ t := by
  unfold correction at h
  split at h
  · simp only [Option.some.injEq] at h
    refine ⟨suf.take (st.PopulationSize - pre.length), ?_⟩
    rw [← h]
    show (pre ++ suf).take st.PopulationSize = _
    rw [List.take_append_eq_append_take, List.take_of_length_le hle]
  · obtain ⟨t, ht⟩ := topUp_extends st ext popOrgs popFit _ _ _ out h
    exact ⟨suf ++ t, by rw [ht, List.append_assoc]⟩

/-- C6 (amended): the elites — the top `eliteCount` fitness-sorted
survivors of a culled species — are appended to the children list
verbatim: no mutation and no crossover is applied to them (they occur as a
contiguous untouched segment of the resulting children), provided the
already-accumulated children plus the elites fit within `PopulationSize`
(otherwise the in-loop truncation of C2 can cut them).  They are then
re-clustered by compatibility distance like every other child, so they
need not land in the species of the same identity. -/
theorem elites_appended_unchanged (st : Settings) (ext : Ext) (popOrgs : List Organism)
    (popFit adjFit : ℚ) (state : RollState) (currS : Species) (out : RollState)
    (h : processSpecies st ext popOrgs popFit adjFit state currS = some out)
    (hfit : state.Children.length + min st.EliteCount currS.Orgs.length
      ≤ st.PopulationSize) :
    ∃ rest, out.Children
      = state.Children ++ currS.Orgs.take (min st.EliteCount currS.Orgs.length)
          ++ rest := by
  simp only [processSpecies, Option.bind_eq_some, Option.map_eq_some'] at h
  obtain ⟨st1, h1, r, hc, hout⟩ := h
  simp only [speciesOffspring, Option.map_eq_some'] at h1
  obtain ⟨q, hq, hst1⟩ := h1
  obtain ⟨t, ht⟩ := offspringLoop_extends st ext currS.Orgs (totalFitness currS.Orgs)
    popOrgs popFit _ _ _ _ q hq
  have hpre : st1.Children
      = (state.Children ++ currS.Orgs.take (min st.EliteCount currS.Orgs.length)) ++ t := by
    rw [← hst1]
    exact ht
  rw [hpre] at hc
  have hlen : (state.Children
      ++ currS.Orgs.take (min st.EliteCount currS.Orgs.length)).length
      ≤ st.PopulationSize := by
    simp only [List.length_append, List.length_take]
    omega
  obtain ⟨u, hu⟩ := correction_keeps_front st ext popOrgs popFit _ t st1.K r hlen hc
  refine ⟨u, ?_⟩
  rw [← hout]
  show r.1 = _
  rw [hu, List.append_assoc]

/-- Witness for the amended C6: the culled species `C6cull` contributes
its elite `C6a1` verbatim as the first child. -/
theorem elites_appended_unchanged_witness :
    ((⟨[], [], 100, 0⟩ : RollState).Children.length
        + min C6st.EliteCount C6cull.Orgs.length ≤ C6st.PopulationSize)
    ∧ ∃ rest, C6state1.Children
        = (⟨[], [], 100, 0⟩ : RollState).Children
            ++ C6cull.Orgs.take (min C6st.EliteCount C6cull.Orgs.length) ++ rest :=
  ⟨by with_unfolding_all decide,
    elites_appended_unchanged C6st C6ext [C6a1, C6a2] 3 3 ⟨[], [], 100, 0⟩ C6cull C6state1
      (by with_unfolding_all decide) (by with_unfolding_all decide)⟩

/-- C6 counterexample: in the concrete run `C6pop → C6out` the elite
`C6a1` of species 5 survives unchanged but is speciated into the NEW
species 100; the continuing species with ID 5 does not contain it.  So an
elite is not carried into the next generation's species of the same
identity. -/
theorem elite_not_same_species :
    rollPop C6st C6ext 100 C6pop = some C6out
    ∧ (∀ s ∈ C6out.Species, s.ID = 5 → C6a1 ∉ s.Orgs)
    ∧ (∃ s ∈ C6out.Species, s.ID ≠ 5 ∧ C6a1 ∈ s.Orgs) := by
  refine ⟨?_, ?_, ?_⟩ <;> with_unfolding_all decide

/-- C2 (code bug): the child-count correction ("Ensure we have the right
number of children") executes INSIDE the per-species loop, once per
surviving species, not once after all species.  After processing only the
first of the two surviving species the children list is already topped up
to `PopulationSize`; consequently, in the full run the second species'
elite `C2b1` — the organism with the highest fitness of the whole
population — is truncated away and absent from the next generation. -/
theorem correction_runs_inside_loop :
    (processSpecies C2st extZero [C2a1, C2a2, C2b1, C2b2] 10 10
        ⟨[], [], 100, 0⟩ C2Ac).map (fun st1 => st1.Children.length)
      = some C2st.PopulationSize
    ∧ rollPop C2st extZero 100 C2pop = some C2out
    ∧ C2b1 ∉ C2out.Organisms := by
  refine ⟨?_, ?_, ?_⟩ <;> with_unfolding_all decide

end Neat
